import Mathlib

/-!
Verification of the reconnection state machine of
`src/pkg/nuclide-flow-rpc/lib/FlowIDEConnectionWatcher.js`.

The watcher is single-threaded JavaScript with explicit suspension points:
(a) awaiting a process handle from the process factory inside the retry loop
of `_makeIDEConnection`, (b) the throttling sleep between attempts, and
(c) waiting for the current connection's `onWillDispose` signal.  We embed it
as a deterministic state machine driven by environment events: the resolution
of a pending process request, the firing of the current connection's
termination signal, and the public calls `start()` / `dispose()`.

Time is an explicit `Nat` field; each environment event carries the wall time
it consumed, and the throttling sleep advances the clock by the slept amount,
mirroring the mocked `_getTimeMS` / `_sleep` used by the repository's tests.
The quantities the surrounding code can observe are recorded in the state:
the list of callback invocations, the processes killed, the subscription and
connection handles whose `dispose()` the watcher invoked, and counts of
acquisition cycles (`_makeIDEConnection` entries) and acquisition attempts
(loop iterations, i.e. subscriptions to the process factory).
-/

namespace FlowWatcher

/-- `IDE_CONNECTION_MAX_WAIT_MS = 20 * 60 * 1000` from the source. -/
def IDE_CONNECTION_MAX_WAIT_MS : Nat := 20 * 60 * 1000

/-- `IDE_CONNECTION_MIN_INTERVAL_MS = 1000` from the source. -/
def IDE_CONNECTION_MIN_INTERVAL_MS : Nat := 1000

/-- `IDE_CONNECTION_HEALTHY_THRESHOLD_MS = 10 * 1000` from the source. -/
def IDE_CONNECTION_HEALTHY_THRESHOLD_MS : Nat := 10 * 1000

/-- `MAX_UNHEALTHY_CONNECTIONS = 20` from the source. -/
def MAX_UNHEALTHY_CONNECTIONS : Nat := 20

/-- Control position of the watcher's single logical thread.

* `idle`: constructed, `_makeIDEConnection` not running.
* `awaitingProc`: suspended at `await processPromise` inside the retry loop.
* `connected`: `_makeIDEConnection` returned after installing a connection;
  the next activity is that connection's `onWillDispose` handler.
* `gaveUp`: `_makeIDEConnection` returned via a give-up path (retry deadline
  exhausted, or the `onWillDispose` handler hit the unhealthy limit).
* `exited`: `_makeIDEConnection` returned via the post-await `_isDisposed`
  check. -/
inductive Mode
  | idle
  | awaitingProc
  | connected
  | gaveUp
  | exited
deriving DecidableEq, Repr

/-- The watcher's fields, the explicit clock, the program-counter data of the
suspended coroutine (`endTimeMS`, `attemptStartTime`, `connectionStartTime`),
and the observable history.  Connections are numbered in order of creation by
`nextConnId`; a connection and the subscription registered on it share a
number. -/
structure WatcherState where
  time : Nat
  isStarted : Bool
  isDisposed : Bool
  consecutiveUnhealthyConnections : Nat
  currentIDEConnection : Option Nat
  currentIDEConnectionSubscription : Option Nat
  mode : Mode
  endTimeMS : Nat
  attemptStartTime : Nat
  connectionStartTime : Nat
  nextConnId : Nat
  callbackLog : List (Option Nat)
  killedProcs : List Nat
  disposedSubs : List Nat
  disposedConns : List Nat
  cyclesStarted : Nat
  attemptsStarted : Nat
deriving DecidableEq, Repr

/-- The constructor of `FlowIDEConnectionWatcher`. -/
def initState : WatcherState :=
  { time := 0
    isStarted := false
    isDisposed := false
    consecutiveUnhealthyConnections := 0
    currentIDEConnection := none
    currentIDEConnectionSubscription := none
    mode := Mode.idle
    endTimeMS := 0
    attemptStartTime := 0
    connectionStartTime := 0
    nextConnId := 0
    callbackLog := []
    killedProcs := []
    disposedSubs := []
    disposedConns := []
    cyclesStarted := 0
    attemptsStarted := 0 }

/-- Environment events driving the watcher.

* `startCall`: the caller invokes `start()`.
* `disposeCall`: the caller invokes `dispose()`.
* `procResult p wall`: the pending `await processPromise` resolves with
  handle `p` (`none` = failed spawn attempt) after `wall` ms of wall time.
* `terminate d`: the current connection's `onWillDispose` signal fires,
  `d` ms after the previous event. -/
inductive WEvent
  | startCall
  | disposeCall
  | procResult (p : Option Nat) (wall : Nat)
  | terminate (d : Nat)
deriving DecidableEq, Repr

/-- Entry into `_makeIDEConnection`: `endTimeMS` is computed once from the
current clock, and the first loop iteration begins (recording its
`attemptStartTime` and subscribing to the process factory). -/
def beginCycle (s : WatcherState) : WatcherState :=
  { s with
    endTimeMS := s.time + IDE_CONNECTION_MAX_WAIT_MS
    attemptStartTime := s.time
    mode := Mode.awaitingProc
    cyclesStarted := s.cyclesStarted + 1
    attemptsStarted := s.attemptsStarted + 1 }

/-- `start()` (lines 70-77): if not yet started, mark started and run
`_makeIDEConnection`; otherwise return a resolved promise and change
nothing. -/
def handleStart (s : WatcherState) : WatcherState :=
  if s.isStarted = false then beginCycle { s with isStarted := true } else s

/-- `dispose()` (lines 162-172): if not yet disposed, mark disposed, dispose
the current subscription if any, and dispose the current connection if any;
otherwise do nothing.  The disposal of the subscription unregisters the
`onWillDispose` handler, so disposing the connection here does not re-enter
the watcher. -/
def handleDispose (s : WatcherState) : WatcherState :=
  if s.isDisposed = false then
    let s1 := { s with isDisposed := true }
    let s2 :=
      match s1.currentIDEConnectionSubscription with
      | some sub => { s1 with disposedSubs := s1.disposedSubs ++ [sub] }
      | none => s1
    match s2.currentIDEConnection with
    | some c => { s2 with disposedConns := s2.disposedConns ++ [c] }
    | none => s2
  else s

/-- Resumption after `proc = await processPromise` (lines 94-150).  The wall
clock advances by `wall`.  If `_isDisposed`, kill a non-null handle and
return (lines 96-101).  If the handle is non-null or `attemptEndTime`
strictly exceeds `endTimeMS`, leave the loop (line 103): a null handle means
the give-up return at lines 121-126, a non-null handle means lines 127-149
(construct the connection, invoke the callback with it, register the
`onWillDispose` subscription, record it as current).  Otherwise sleep for
`IDE_CONNECTION_MIN_INTERVAL_MS - attemptWallTime` ms when that is positive
(lines 109-118) and begin the next loop iteration. -/
def handleProcResult (s : WatcherState) (p : Option Nat) (wall : Nat) :
    WatcherState :=
  if s.mode = Mode.awaitingProc then
    let s1 := { s with time := s.time + wall }
    if s1.isDisposed then
      let s2 :=
        match p with
        | some pid => { s1 with killedProcs := s1.killedProcs ++ [pid] }
        | none => s1
      { s2 with mode := Mode.exited }
    else
      let attemptEndTime := s1.time
      if p.isSome ∨ attemptEndTime > s1.endTimeMS then
        match p with
        | none => { s1 with mode := Mode.gaveUp }
        | some _pid =>
          let connId := s1.nextConnId
          { s1 with
            mode := Mode.connected
            connectionStartTime := s1.time
            callbackLog := s1.callbackLog ++ [some connId]
            currentIDEConnectionSubscription := some connId
            currentIDEConnection := some connId
            nextConnId := connId + 1 }
      else
        let attemptWallTime : Int :=
          (attemptEndTime : Int) - (s1.attemptStartTime : Int)
        let additionalWaitTime : Int :=
          (IDE_CONNECTION_MIN_INTERVAL_MS : Int) - attemptWallTime
        let s2 :=
          if additionalWaitTime > 0 then
            { s1 with time := s1.time + additionalWaitTime.toNat }
          else s1
        { s2 with
          attemptStartTime := s2.time
          attemptsStarted := s2.attemptsStarted + 1 }
  else s

/-- The `onWillDispose` handler (lines 130-147), firing `d` ms after the
previous event.  It only runs while the subscription is live, i.e. while the
watcher holds a current connection and `dispose()` has not unregistered the
handler.  The handler invokes the callback with `null`, computes the alive
time, and either gives up (unhealthy streak reached the limit) or re-enters
`_makeIDEConnection`. -/
def handleTerminate (s : WatcherState) (d : Nat) : WatcherState :=
  if s.mode = Mode.connected ∧ s.isDisposed = false then
    let s1 := { s with time := s.time + d }
    let s2 := { s1 with callbackLog := s1.callbackLog ++ [none] }
    let connectionAliveTime := s2.time - s2.connectionStartTime
    if connectionAliveTime < IDE_CONNECTION_HEALTHY_THRESHOLD_MS then
      let s3 :=
        { s2 with
          consecutiveUnhealthyConnections :=
            s2.consecutiveUnhealthyConnections + 1 }
      if s3.consecutiveUnhealthyConnections ≥ MAX_UNHEALTHY_CONNECTIONS then
        { s3 with mode := Mode.gaveUp }
      else beginCycle s3
    else beginCycle { s2 with consecutiveUnhealthyConnections := 0 }
  else s

/-- One environment event. -/
def step (s : WatcherState) (e : WEvent) : WatcherState :=
  match e with
  | WEvent.startCall => handleStart s
  | WEvent.disposeCall => handleDispose s
  | WEvent.procResult p wall => handleProcResult s p wall
  | WEvent.terminate d => handleTerminate s d

/-- Run a list of environment events from the freshly constructed watcher. -/
def run (evs : List WEvent) : WatcherState := evs.foldl step initState

/-- Event script: `start()` followed by `n` immediately-crashing connections
(each spawn succeeds instantly and the connection terminates at age 0). -/
def crashLoopScript (n : Nat) : List WEvent :=
  WEvent.startCall ::
    (List.replicate n [WEvent.procResult (some 0) 0, WEvent.terminate 0]).flatten

/-- One callback invocation checked against the strict-alternation
discipline: `some true` = a connection value is expected next, `some false`
= an absence value is expected next, `none` = the discipline has been
violated. -/
def altStep : Option Bool → Option Nat → Option Bool
  | some true, some _ => some false
  | some false, none => some true
  | _, _ => none

/-- Fold the alternation discipline over a callback log, starting from
"expecting a connection value". -/
def altScan (l : List (Option Nat)) : Option Bool :=
  l.foldl altStep (some true)

/-- A callback log obeys strict alternation: it is of the shape
connection, absence, connection, absence, ... -/
def altOk (l : List (Option Nat)) : Bool := (altScan l).isSome

/-- Invariant tying the callback log's alternation state to the watcher's
mode: the log awaits an absence value exactly while a connection is
current, and an unstarted watcher is idle. -/
def altInv (s : WatcherState) : Prop :=
  altScan s.callbackLog
      = (if s.mode = Mode.connected then some false else some true) ∧
    (s.isStarted = false → s.mode = Mode.idle)

/-- Scripts in which every spawn attempt fails (the Process Source yields
absence on every request). -/
def allAbsent (evs : List WEvent) : Prop :=
  ∀ e ∈ evs, ∃ w, e = WEvent.procResult none w

/-- Invariant of the first acquisition cycle under an always-absent Process
Source: no callback was invoked, exactly one cycle ran, its deadline is the
one computed at cycle start, and the watcher is either still retrying or
gave up at a time strictly past the deadline. -/
def timeoutInv (s : WatcherState) : Prop :=
  s.callbackLog = [] ∧ s.cyclesStarted = 1 ∧
    s.endTimeMS = IDE_CONNECTION_MAX_WAIT_MS ∧ s.isDisposed = false ∧
    s.isStarted = true ∧
    (s.mode = Mode.awaitingProc ∨
      (s.mode = Mode.gaveUp ∧ s.time > s.endTimeMS))

end FlowWatcher

namespace FlowWatcher

/-- C7: `start()` is idempotent: the first call marks the watcher started and
begins the first acquisition cycle; every subsequent call returns an
immediately-resolved promise and does not start a second concurrent
acquisition cycle (it leaves the state unchanged). -/
theorem start_idempotent :
    (∀ s : WatcherState, s.isStarted = false →
      (step s WEvent.startCall).isStarted = true ∧
      (step s WEvent.startCall).cyclesStarted = s.cyclesStarted + 1 ∧
      (step s WEvent.startCall).mode = Mode.awaitingProc) ∧
    (∀ s : WatcherState, s.isStarted = true → step s WEvent.startCall = s) ∧
    (∀ s : WatcherState,
      step (step s WEvent.startCall) WEvent.startCall
        = step s WEvent.startCall) := by
  refine ⟨?_, ?_, ?_⟩
  · intro s h
    simp [step, handleStart, beginCycle, h]
  · intro s h
    simp [step, handleStart, h]
  · intro s
    by_cases h : s.isStarted = false
    · simp [step, handleStart, beginCycle, h]
    · simp [step, handleStart, h]

/-- Witness for C7 at the freshly constructed watcher. -/
theorem start_idempotent_witness :
    (step initState WEvent.startCall).cyclesStarted = 1 ∧
    step (run [WEvent.startCall]) WEvent.startCall = run [WEvent.startCall] := by
  constructor
  · have h := (start_idempotent.1 initState (by decide)).2.1
    rw [h]; decide
  · exact start_idempotent.2.1 (run [WEvent.startCall]) (by decide)

/-- C8: `dispose()` is idempotent and performs teardown exactly once: the
first call marks the watcher disposed, disposes the held subscription if
one exists and the current connection if one exists; a call on an
already-disposed watcher changes nothing, so a second call has no
additional effect. -/
theorem dispose_idempotent :
    (∀ s : WatcherState, s.isDisposed = false →
      (step s WEvent.disposeCall).isDisposed = true) ∧
    (∀ (s : WatcherState) (k : Nat), s.isDisposed = false →
      s.currentIDEConnectionSubscription = some k →
      (step s WEvent.disposeCall).disposedSubs = s.disposedSubs ++ [k]) ∧
    (∀ (s : WatcherState) (c : Nat), s.isDisposed = false →
      s.currentIDEConnection = some c →
      (step s WEvent.disposeCall).disposedConns = s.disposedConns ++ [c]) ∧
    (∀ s : WatcherState, s.isDisposed = true → step s WEvent.disposeCall = s) ∧
    (∀ s : WatcherState,
      step (step s WEvent.disposeCall) WEvent.disposeCall
        = step s WEvent.disposeCall) := by
  have hinert : ∀ s : WatcherState, s.isDisposed = true →
      step s WEvent.disposeCall = s := by
    intro s h
    simp [step, handleDispose, h]
  have hmark : ∀ s : WatcherState, s.isDisposed = false →
      (step s WEvent.disposeCall).isDisposed = true := by
    intro s h
    simp only [step, handleDispose, h]
    cases hc : s.currentIDEConnectionSubscription <;>
      cases hc2 : s.currentIDEConnection <;> simp [hc, hc2]
  refine ⟨hmark, ?_, ?_, hinert, ?_⟩
  · intro s k h hk
    simp only [step, handleDispose, h]
    rw [hk]
    cases hc2 : s.currentIDEConnection <;> simp [hc2]
  · intro s c h hc
    simp only [step, handleDispose, h]
    cases hk : s.currentIDEConnectionSubscription <;> rw [hc] <;> simp [hk]
  · intro s
    by_cases h : s.isDisposed = false
    · exact hinert _ (hmark s h)
    · rw [hinert s (by simpa using h)]
      exact hinert s (by simpa using h)

/-- Witness for C8 on a watcher that holds a connection and a
subscription. -/
theorem dispose_idempotent_witness :
    (step (run [WEvent.startCall, WEvent.procResult (some 7) 5])
        WEvent.disposeCall).disposedSubs = [0] ∧
    (step (run [WEvent.startCall, WEvent.procResult (some 7) 5])
        WEvent.disposeCall).disposedConns = [0] ∧
    step (step (run [WEvent.startCall, WEvent.procResult (some 7) 5])
        WEvent.disposeCall) WEvent.disposeCall
      = step (run [WEvent.startCall, WEvent.procResult (some 7) 5])
        WEvent.disposeCall := by
  refine ⟨?_, ?_, ?_⟩
  · have h := dispose_idempotent.2.1
      (run [WEvent.startCall, WEvent.procResult (some 7) 5]) 0
      (by decide) (by decide)
    rw [h]; decide
  · have h := dispose_idempotent.2.2.1
      (run [WEvent.startCall, WEvent.procResult (some 7) 5]) 0
      (by decide) (by decide)
    rw [h]; decide
  · exact dispose_idempotent.2.2.2.2
      (run [WEvent.startCall, WEvent.procResult (some 7) 5])

end FlowWatcher

namespace FlowWatcher

/-- C2: in every retry iteration that receives an absent handle at or before
the deadline, the clock advances by the attempt's wall time plus exactly
`max 0 (IDE_CONNECTION_MIN_INTERVAL_MS - elapsed)` of additional waiting,
where `elapsed` is the wall time the attempt took; the loop then begins the
next attempt. -/
theorem retry_wait_exact :
    ∀ (s : WatcherState) (wall : Nat), s.mode = Mode.awaitingProc →
      s.isDisposed = false → s.attemptStartTime = s.time →
      s.time + wall ≤ s.endTimeMS →
      (step s (WEvent.procResult none wall)).time
        = s.time + wall
          + (max 0 ((IDE_CONNECTION_MIN_INTERVAL_MS : Int) - (wall : Int))).toNat ∧
      (step s (WEvent.procResult none wall)).mode = Mode.awaitingProc ∧
      (step s (WEvent.procResult none wall)).attemptStartTime
        = (step s (WEvent.procResult none wall)).time ∧
      (step s (WEvent.procResult none wall)).attemptsStarted
        = s.attemptsStarted + 1 := by
  intro s wall h1 h2 h3 h4
  simp only [step, handleProcResult, h1, if_true, h2,
    IDE_CONNECTION_MIN_INTERVAL_MS]
  rw [if_neg (by simp)]
  rw [if_neg (by simp; omega)]
  rw [h3]
  split_ifs with hw <;>
    exact ⟨by dsimp only; omega, rfl, rfl, rfl⟩

/-- Witness for C2: a failed attempt of 200 ms is followed by an 800 ms wait
(clock 1000 at the next attempt), while a failed attempt of 1500 ms is
followed by no extra wait (clock 1500). -/
theorem retry_wait_exact_witness :
    (step (run [WEvent.startCall]) (WEvent.procResult none 200)).time = 1000 ∧
    (step (run [WEvent.startCall]) (WEvent.procResult none 1500)).time = 1500 := by
  constructor
  · have h := (retry_wait_exact (run [WEvent.startCall]) 200 (by decide)
      (by decide) (by decide) (by decide)).1
    rw [h]; decide
  · have h := (retry_wait_exact (run [WEvent.startCall]) 1500 (by decide)
      (by decide) (by decide) (by decide)).1
    rw [h]; decide

end FlowWatcher

namespace FlowWatcher

/-- Once `_makeIDEConnection` has returned through a give-up path, no event
re-enters the watcher: the mode stays `gaveUp` and no cycle, attempt, or
callback invocation is added (provided `start()` has already been called, so
that a further `start()` is the no-op second call). -/
lemma step_gaveUp_frame (s : WatcherState) (e : WEvent)
    (hm : s.mode = Mode.gaveUp) (hs : s.isStarted = true) :
    (step s e).mode = Mode.gaveUp ∧
    (step s e).cyclesStarted = s.cyclesStarted ∧
    (step s e).attemptsStarted = s.attemptsStarted ∧
    (step s e).callbackLog = s.callbackLog := by
  cases e with
  | startCall => simp [step, handleStart, hs, hm]
  | disposeCall =>
    simp only [step, handleDispose]
    split
    · cases hc : s.currentIDEConnectionSubscription <;>
        cases hc2 : s.currentIDEConnection <;> simp [hc, hc2, hm]
    · simp [hm]
  | procResult p wall => simp [step, handleProcResult, hm]
  | terminate d => simp [step, handleTerminate, hm]

/-- C1: every termination of the current connection whose alive-duration is
strictly below `IDE_CONNECTION_HEALTHY_THRESHOLD_MS` increments
`consecutiveUnhealthyConnections`; when the incremented streak reaches
`MAX_UNHEALTHY_CONNECTIONS` the watcher gives up — no new acquisition cycle
is started by that termination, nor by any later event. -/
theorem unhealthy_streak_giveup :
    (∀ (s : WatcherState) (d : Nat), s.mode = Mode.connected →
      s.isDisposed = false →
      s.time + d - s.connectionStartTime < IDE_CONNECTION_HEALTHY_THRESHOLD_MS →
      (step s (WEvent.terminate d)).consecutiveUnhealthyConnections
        = s.consecutiveUnhealthyConnections + 1 ∧
      (s.consecutiveUnhealthyConnections + 1 ≥ MAX_UNHEALTHY_CONNECTIONS →
        (step s (WEvent.terminate d)).mode = Mode.gaveUp ∧
        (step s (WEvent.terminate d)).cyclesStarted = s.cyclesStarted ∧
        (step s (WEvent.terminate d)).attemptsStarted = s.attemptsStarted) ∧
      (s.consecutiveUnhealthyConnections + 1 < MAX_UNHEALTHY_CONNECTIONS →
        (step s (WEvent.terminate d)).mode = Mode.awaitingProc ∧
        (step s (WEvent.terminate d)).cyclesStarted = s.cyclesStarted + 1)) ∧
    (∀ (s : WatcherState) (e : WEvent), s.mode = Mode.gaveUp →
      s.isStarted = true →
      (step s e).mode = Mode.gaveUp ∧
      (step s e).cyclesStarted = s.cyclesStarted ∧
      (step s e).attemptsStarted = s.attemptsStarted ∧
      (step s e).callbackLog = s.callbackLog) := by
  refine ⟨?_, fun s e hm hs => step_gaveUp_frame s e hm hs⟩
  intro s d hm hd hu
  simp only [step, handleTerminate, beginCycle]
  rw [if_pos (show s.mode = Mode.connected ∧ s.isDisposed = false from ⟨hm, hd⟩)]
  split_ifs with hMax
  · exact ⟨rfl, fun _ => ⟨rfl, rfl, rfl⟩, fun h => absurd hMax (by omega)⟩
  · exact ⟨rfl, fun h => absurd h hMax, fun _ => ⟨rfl, rfl⟩⟩

set_option maxRecDepth 100000 in
/-- Witness for C1: after 19 immediate crashes the 20th connection is live
with streak 19; its immediate termination raises the streak to 20, the mode
becomes `gaveUp`, and the number of acquisition cycles stays at 20. -/
theorem unhealthy_streak_giveup_witness :
    (run (crashLoopScript 19 ++ [WEvent.procResult (some 0) 0])).consecutiveUnhealthyConnections
      = 19 ∧
    (step (run (crashLoopScript 19 ++ [WEvent.procResult (some 0) 0]))
        (WEvent.terminate 0)).consecutiveUnhealthyConnections = 20 ∧
    (step (run (crashLoopScript 19 ++ [WEvent.procResult (some 0) 0]))
        (WEvent.terminate 0)).mode = Mode.gaveUp ∧
    (step (run (crashLoopScript 19 ++ [WEvent.procResult (some 0) 0]))
        (WEvent.terminate 0)).cyclesStarted
      = (run (crashLoopScript 19 ++ [WEvent.procResult (some 0) 0])).cyclesStarted := by
  have h := unhealthy_streak_giveup.1
    (run (crashLoopScript 19 ++ [WEvent.procResult (some 0) 0])) 0
    (by decide) (by decide) (by decide)
  refine ⟨by decide, ?_, ?_, ?_⟩
  · rw [h.1]; decide
  · exact (h.2.1 (by decide)).1
  · exact (h.2.1 (by decide)).2.1

end FlowWatcher

namespace FlowWatcher

/-- Counterexample to C5 as stated: `dispose()` on a never-started watcher
marks it disposed with no attempt made, yet a subsequent first call to
`start()` still begins an acquisition cycle and its first attempt —
`start()` does not consult `_isDisposed`. -/
theorem disposed_attempt_counterexample :
    (run [WEvent.disposeCall]).isDisposed = true ∧
    (run [WEvent.disposeCall]).attemptsStarted = 0 ∧
    (run [WEvent.disposeCall, WEvent.startCall]).isDisposed = true ∧
    (run [WEvent.disposeCall, WEvent.startCall]).attemptsStarted = 1 ∧
    (run [WEvent.disposeCall, WEvent.startCall]).cyclesStarted = 1 := by
  decide

/-- C5 (amended): once `isDisposed` is true the callback is never invoked
again, and a handle that resolves the pending process request after
disposal is killed while the cycle exits without invoking the callback or
the connection factory; provided `start()` had already been called, no new
acquisition cycle or attempt is started either. -/
theorem disposed_inert :
    (∀ (s : WatcherState) (e : WEvent), s.isDisposed = true →
      (step s e).callbackLog = s.callbackLog) ∧
    (∀ (s : WatcherState) (e : WEvent), s.isDisposed = true →
      s.isStarted = true →
      (step s e).cyclesStarted = s.cyclesStarted ∧
      (step s e).attemptsStarted = s.attemptsStarted) ∧
    (∀ (s : WatcherState) (p wall : Nat), s.mode = Mode.awaitingProc →
      s.isDisposed = true →
      (step s (WEvent.procResult (some p) wall)).killedProcs
        = s.killedProcs ++ [p] ∧
      (step s (WEvent.procResult (some p) wall)).mode = Mode.exited ∧
      (step s (WEvent.procResult (some p) wall)).callbackLog = s.callbackLog ∧
      (step s (WEvent.procResult (some p) wall)).nextConnId = s.nextConnId) := by
  refine ⟨?_, ?_, ?_⟩
  · intro s e hd
    cases e with
    | startCall =>
      by_cases hs : s.isStarted = false <;>
        simp [step, handleStart, beginCycle, hs]
    | disposeCall => simp [step, handleDispose, hd]
    | procResult p wall =>
      by_cases hm : s.mode = Mode.awaitingProc
      · cases p <;> simp [step, handleProcResult, hm, hd]
      · simp [step, handleProcResult, hm]
    | terminate d => simp [step, handleTerminate, hd]
  · intro s e hd hs
    cases e with
    | startCall => simp [step, handleStart, hs]
    | disposeCall => simp [step, handleDispose, hd]
    | procResult p wall =>
      by_cases hm : s.mode = Mode.awaitingProc
      · cases p <;> simp [step, handleProcResult, hm, hd]
      · simp [step, handleProcResult, hm]
    | terminate d => simp [step, handleTerminate, hd]
  · intro s p wall hm hd
    simp [step, handleProcResult, hm, hd]

/-- Witness for C5 (amended): a watcher disposed while awaiting a process
kills the handle that then arrives and exits its cycle without invoking the
callback or making a connection. -/
theorem disposed_inert_witness :
    (step (run [WEvent.startCall, WEvent.disposeCall])
        (WEvent.procResult (some 42) 3)).killedProcs = [42] ∧
    (step (run [WEvent.startCall, WEvent.disposeCall])
        (WEvent.procResult (some 42) 3)).mode = Mode.exited ∧
    (step (run [WEvent.startCall, WEvent.disposeCall])
        (WEvent.procResult (some 42) 3)).callbackLog = [] ∧
    (step (run [WEvent.startCall, WEvent.disposeCall])
        (WEvent.procResult (some 42) 3)).nextConnId = 0 := by
  have h := disposed_inert.2.2 (run [WEvent.startCall, WEvent.disposeCall])
    42 3 (by decide) (by decide)
  refine ⟨?_, h.2.1, ?_, ?_⟩
  · rw [h.1]; decide
  · rw [h.2.2.1]; decide
  · rw [h.2.2.2]; decide

end FlowWatcher

namespace FlowWatcher

/-- `consecutiveUnhealthyConnections` is untouched by the resolution of a
process request. -/
lemma procResult_count (s : WatcherState) (p : Option Nat) (wall : Nat) :
    (step s (WEvent.procResult p wall)).consecutiveUnhealthyConnections
      = s.consecutiveUnhealthyConnections := by
  cases p <;> simp [step, handleProcResult] <;> split_ifs <;> rfl

/-- `consecutiveUnhealthyConnections` is untouched by `start()`. -/
lemma start_count (s : WatcherState) :
    (step s WEvent.startCall).consecutiveUnhealthyConnections
      = s.consecutiveUnhealthyConnections := by
  simp [step, handleStart, beginCycle]; split_ifs <;> rfl

/-- `consecutiveUnhealthyConnections` is untouched by `dispose()`. -/
lemma dispose_count (s : WatcherState) :
    (step s WEvent.disposeCall).consecutiveUnhealthyConnections
      = s.consecutiveUnhealthyConnections := by
  simp only [step, handleDispose]
  split
  · cases hc : s.currentIDEConnectionSubscription <;>
      cases hc2 : s.currentIDEConnection <;> simp [hc, hc2]
  · rfl

/-- No event other than `dispose()` ever invokes `dispose()` on a
subscription handle. -/
lemma nondispose_disposedSubs (s : WatcherState) (e : WEvent)
    (h : e ≠ WEvent.disposeCall) :
    (step s e).disposedSubs = s.disposedSubs := by
  cases e with
  | startCall => simp [step, handleStart, beginCycle]; split_ifs <;> rfl
  | disposeCall => exact absurd rfl h
  | procResult p wall =>
    cases p <;> simp [step, handleProcResult] <;> split_ifs <;> rfl
  | terminate d =>
    simp [step, handleTerminate, beginCycle] <;> split_ifs <;> rfl

/-- A held `currentIDEConnection` is either kept or replaced by the freshly
created connection (never cleared to `none`). -/
lemma conn_preserved (s : WatcherState) (e : WEvent) (c : Nat)
    (h : s.currentIDEConnection = some c) :
    (step s e).currentIDEConnection = some c ∨
      ((step s e).currentIDEConnection = some s.nextConnId ∧
        (step s e).nextConnId = s.nextConnId + 1) := by
  cases e with
  | startCall =>
    left; simp [step, handleStart, beginCycle]; split_ifs <;> simp [h]
  | disposeCall =>
    left
    simp only [step, handleDispose]
    split
    · cases hc : s.currentIDEConnectionSubscription <;> simp [hc, h]
    · exact h
  | procResult p wall =>
    cases p with
    | none =>
      left; simp [step, handleProcResult] <;> split_ifs <;> simp [h]
    | some pid =>
      by_cases hm : s.mode = Mode.awaitingProc
      · by_cases hd : s.isDisposed
        · left; simp [step, handleProcResult, hm, hd, h]
        · right; simp [step, handleProcResult, hm, hd]
      · left; simp [step, handleProcResult, hm, h]
  | terminate d =>
    left; simp [step, handleTerminate, beginCycle] <;> split_ifs <;> simp [h]

/-- Connection numbers are assigned in increasing order. -/
lemma nextConnId_mono (s : WatcherState) (e : WEvent) :
    s.nextConnId ≤ (step s e).nextConnId := by
  cases e with
  | startCall => simp [step, handleStart, beginCycle]; split_ifs <;> simp
  | disposeCall =>
    simp only [step, handleDispose]
    split
    · cases hc : s.currentIDEConnectionSubscription <;>
        cases hc2 : s.currentIDEConnection <;> simp [hc, hc2]
    · simp
  | procResult p wall =>
    cases p <;> simp [step, handleProcResult] <;> split_ifs <;> simp
  | terminate d =>
    simp [step, handleTerminate, beginCycle] <;> split_ifs <;> simp

/-- C4: `consecutiveUnhealthyConnections` increases only on a termination of
the live connection at an alive-duration strictly below the health threshold
(and then by exactly one); a termination at or beyond the threshold resets it
to 0; and a crash immediately following a healthy connection yields a streak
of exactly 1. -/
theorem streak_accounting :
    (∀ (s : WatcherState) (e : WEvent),
      (step s e).consecutiveUnhealthyConnections
          > s.consecutiveUnhealthyConnections →
      ∃ d, e = WEvent.terminate d ∧ s.mode = Mode.connected ∧
        s.isDisposed = false ∧
        s.time + d - s.connectionStartTime
          < IDE_CONNECTION_HEALTHY_THRESHOLD_MS ∧
        (step s e).consecutiveUnhealthyConnections
          = s.consecutiveUnhealthyConnections + 1) ∧
    (∀ (s : WatcherState) (d : Nat), s.mode = Mode.connected →
      s.isDisposed = false →
      IDE_CONNECTION_HEALTHY_THRESHOLD_MS ≤ s.time + d - s.connectionStartTime →
      (step s (WEvent.terminate d)).consecutiveUnhealthyConnections = 0) ∧
    (∀ (s : WatcherState) (d : Nat), s.mode = Mode.connected →
      s.isDisposed = false →
      s.consecutiveUnhealthyConnections = 0 →
      s.time + d - s.connectionStartTime
        < IDE_CONNECTION_HEALTHY_THRESHOLD_MS →
      (step s (WEvent.terminate d)).consecutiveUnhealthyConnections = 1) := by
  refine ⟨?_, ?_, ?_⟩
  · intro s e hgt
    cases e with
    | startCall => rw [start_count] at hgt; omega
    | disposeCall => rw [dispose_count] at hgt; omega
    | procResult p wall => rw [procResult_count] at hgt; omega
    | terminate d =>
      by_cases hc : s.mode = Mode.connected ∧ s.isDisposed = false
      · by_cases hHealth : s.time + d - s.connectionStartTime
            < IDE_CONNECTION_HEALTHY_THRESHOLD_MS
        · refine ⟨d, rfl, hc.1, hc.2, hHealth, ?_⟩
          simp only [step, handleTerminate, beginCycle]
          rw [if_pos hc, if_pos hHealth]
          split_ifs <;> rfl
        · exfalso
          simp only [step, handleTerminate, beginCycle] at hgt
          rw [if_pos hc, if_neg hHealth] at hgt
          simp at hgt
      · exfalso
        simp only [step, handleTerminate] at hgt
        rw [if_neg hc] at hgt
        omega
  · intro s d hm hd hh
    simp only [step, handleTerminate, beginCycle]
    rw [if_pos (show s.mode = Mode.connected ∧ s.isDisposed = false from ⟨hm, hd⟩)]
    rw [if_neg (by omega)]
  · intro s d hm hd h0 hh
    simp only [step, handleTerminate, beginCycle]
    rw [if_pos (show s.mode = Mode.connected ∧ s.isDisposed = false from ⟨hm, hd⟩)]
    rw [if_pos hh]
    split_ifs <;> simp [h0]

/-- Witness for C4: a connection that survives exactly the health threshold
resets the streak to 0, and the immediately-crashing successor connection
yields a streak of exactly 1. -/
theorem streak_accounting_witness :
    (run [WEvent.startCall, WEvent.procResult (some 5) 0,
        WEvent.terminate 10000,
        WEvent.procResult (some 6) 0]).consecutiveUnhealthyConnections = 0 ∧
    (step (run [WEvent.startCall, WEvent.procResult (some 5) 0,
        WEvent.terminate 10000, WEvent.procResult (some 6) 0])
      (WEvent.terminate 0)).consecutiveUnhealthyConnections = 1 := by
  refine ⟨by decide, ?_⟩
  exact streak_accounting.2.2
    (run [WEvent.startCall, WEvent.procResult (some 5) 0,
      WEvent.terminate 10000, WEvent.procResult (some 6) 0]) 0
    (by decide) (by decide) (by decide) (by decide)

end FlowWatcher

namespace FlowWatcher

/-- Counterexample to C9 as stated: when the crashed first connection is
replaced by a second one, the subscription handle held for the first
connection is merely overwritten — its `dispose()` is never invoked
(`disposedSubs` stays empty), so changing the connection does not release
the previously held subscription. -/
theorem subscription_release_counterexample :
    (run [WEvent.startCall, WEvent.procResult (some 100) 0,
        WEvent.terminate 0]).currentIDEConnectionSubscription = some 0 ∧
    (run [WEvent.startCall, WEvent.procResult (some 100) 0,
        WEvent.terminate 0, WEvent.procResult (some 101) 0]).currentIDEConnection
      = some 1 ∧
    (run [WEvent.startCall, WEvent.procResult (some 100) 0,
        WEvent.terminate 0,
        WEvent.procResult (some 101) 0]).currentIDEConnectionSubscription
      = some 1 ∧
    (run [WEvent.startCall, WEvent.procResult (some 100) 0,
        WEvent.terminate 0, WEvent.procResult (some 101) 0]).disposedSubs
      = [] := by
  decide

/-- C9 (amended): the termination-signal subscription handle is released —
its `dispose()` invoked — exactly by the first `dispose()` of the watcher;
a connection change merely overwrites the handle, and no event other than
`dispose()` (nor a repeated `dispose()`) releases any subscription. -/
theorem subscription_release :
    (∀ (s : WatcherState) (k : Nat), s.isDisposed = false →
      s.currentIDEConnectionSubscription = some k →
      (step s WEvent.disposeCall).disposedSubs = s.disposedSubs ++ [k]) ∧
    (∀ (s : WatcherState) (e : WEvent), e ≠ WEvent.disposeCall →
      (step s e).disposedSubs = s.disposedSubs) ∧
    (∀ s : WatcherState, s.isDisposed = true →
      (step s WEvent.disposeCall).disposedSubs = s.disposedSubs) := by
  refine ⟨?_, fun s e h => nondispose_disposedSubs s e h, ?_⟩
  · intro s k h hk
    simp only [step, handleDispose, h]
    rw [hk]
    cases hc2 : s.currentIDEConnection <;> simp [hc2]
  · intro s h
    simp [step, handleDispose, h]

/-- Witness for C9 (amended): on a watcher holding subscription 0,
`dispose()` releases exactly that subscription, while a connection
termination releases none. -/
theorem subscription_release_witness :
    (step (run [WEvent.startCall, WEvent.procResult (some 9) 1])
        WEvent.disposeCall).disposedSubs = [0] ∧
    (step (run [WEvent.startCall, WEvent.procResult (some 9) 1])
        (WEvent.terminate 2)).disposedSubs = [] := by
  constructor
  · have h := subscription_release.1
      (run [WEvent.startCall, WEvent.procResult (some 9) 1]) 0
      (by decide) (by decide)
    rw [h]; decide
  · have h := subscription_release.2.1
      (run [WEvent.startCall, WEvent.procResult (some 9) 1])
      (WEvent.terminate 2) (by decide)
    rw [h]; decide

/-- C10: a held `currentIDEConnection` is never cleared back to `none` and is
only ever replaced by the next connection created (a strictly larger
connection number); consequently `dispose()` called after a give-up still
invokes `dispose()` on the recorded — already terminated — connection. -/
theorem connection_retained :
    (∀ (s : WatcherState) (e : WEvent) (c : Nat),
      s.currentIDEConnection = some c →
      (step s e).currentIDEConnection = some c ∨
        ((step s e).currentIDEConnection = some s.nextConnId ∧
          (step s e).nextConnId = s.nextConnId + 1)) ∧
    (∀ (s : WatcherState) (e : WEvent) (c : Nat),
      s.currentIDEConnection = some c → c < s.nextConnId →
      ∃ c2, (step s e).currentIDEConnection = some c2 ∧ c ≤ c2 ∧
        c2 < (step s e).nextConnId) ∧
    (∀ (s : WatcherState) (c : Nat), s.isDisposed = false →
      s.mode = Mode.gaveUp → s.currentIDEConnection = some c →
      (step s WEvent.disposeCall).disposedConns = s.disposedConns ++ [c]) := by
  refine ⟨fun s e c h => conn_preserved s e c h, ?_, ?_⟩
  · intro s e c h hlt
    rcases conn_preserved s e c h with h2 | ⟨h2, h3⟩
    · exact ⟨c, h2, le_refl c, lt_of_lt_of_le hlt (nextConnId_mono s e)⟩
    · exact ⟨s.nextConnId, h2, le_of_lt hlt, by omega⟩
  · intro s c hd hm hc
    simp only [step, handleDispose, hd]
    rw [hc]
    cases hk : s.currentIDEConnectionSubscription <;> simp [hk]

set_option maxRecDepth 100000 in
/-- Witness for C10: after the crash-loop give-up the last (terminated)
connection is still recorded, and `dispose()` invokes its `dispose()`
method. -/
theorem connection_retained_witness :
    (run (crashLoopScript 20)).mode = Mode.gaveUp ∧
    (run (crashLoopScript 20)).currentIDEConnection = some 19 ∧
    (step (run (crashLoopScript 20)) WEvent.disposeCall).disposedConns
      = [19] := by
  refine ⟨by decide, by decide, ?_⟩
  have h := connection_retained.2.2 (run (crashLoopScript 20)) 19
    (by decide) (by decide) (by decide)
  rw [h]; decide

end FlowWatcher

namespace FlowWatcher

/-- `altScan` over a log extended by one invocation. -/
lemma altScan_append (l : List (Option Nat)) (x : Option Nat) :
    altScan (l ++ [x]) = altStep (altScan l) x := by
  simp [altScan, List.foldl_append]

/-- `isStarted` becomes true on `start()` and is otherwise untouched. -/
lemma step_isStarted (s : WatcherState) (e : WEvent) :
    (step s e).isStarted = (s.isStarted || e == WEvent.startCall) := by
  cases e with
  | startCall =>
    by_cases hs : s.isStarted = false <;>
      simp [step, handleStart, beginCycle, hs]
  | disposeCall =>
    simp only [step, handleDispose]
    split
    · cases hc : s.currentIDEConnectionSubscription <;>
        cases hc2 : s.currentIDEConnection <;> simp [hc, hc2]
    · simp
  | procResult p wall =>
    cases p <;> simp [step, handleProcResult] <;> split_ifs <;> simp
  | terminate d =>
    simp [step, handleTerminate, beginCycle] <;> split_ifs <;> simp

/-- A never-started watcher stays idle under anything but `start()`. -/
lemma step_idle (s : WatcherState) (e : WEvent) (hm : s.mode = Mode.idle)
    (hne : e ≠ WEvent.startCall) : (step s e).mode = Mode.idle := by
  cases e with
  | startCall => exact absurd rfl hne
  | disposeCall =>
    simp only [step, handleDispose]
    split
    · cases hc : s.currentIDEConnectionSubscription <;>
        cases hc2 : s.currentIDEConnection <;> simp [hc, hc2, hm]
    · exact hm
  | procResult p wall => simp [step, handleProcResult, hm]
  | terminate d => simp [step, handleTerminate, hm]

/-- Every event preserves the alternation invariant. -/
lemma altInv_step (s : WatcherState) (e : WEvent) (h : altInv s) :
    altInv (step s e) := by
  obtain ⟨hscan, hidle⟩ := h
  refine ⟨?_, ?_⟩
  · cases e with
    | startCall =>
      by_cases hs : s.isStarted = false
      · have hmi := hidle hs
        simp [step, handleStart, beginCycle, hs]
        simpa [hmi] using hscan
      · simpa [step, handleStart, hs] using hscan
    | disposeCall =>
      by_cases hd : s.isDisposed = false
      · simp only [step, handleDispose, hd, if_true]
        cases hc : s.currentIDEConnectionSubscription <;>
          cases hc2 : s.currentIDEConnection <;> simpa [hc, hc2] using hscan
      · simpa [step, handleDispose, hd] using hscan
    | procResult p wall =>
      by_cases hm : s.mode = Mode.awaitingProc
      · by_cases hd : s.isDisposed = true
        · cases p <;> simpa [step, handleProcResult, hm, hd] using hscan
        · have hd2 : s.isDisposed = false := by
            cases hb : s.isDisposed
            · rfl
            · exact absurd hb hd
          have hs' : altScan s.callbackLog = some true := by
            simpa [hm] using hscan
          cases p with
          | none =>
            simp only [step, handleProcResult, hm, if_true, hd2]
            split_ifs <;> (try contradiction) <;> simp [hs']
          | some pid =>
            simp [step, handleProcResult, hm, hd2, altScan_append, hs',
              altStep]
      · simpa [step, handleProcResult, hm] using hscan
    | terminate d =>
      by_cases hc : s.mode = Mode.connected ∧ s.isDisposed = false
      · have hs' : altScan s.callbackLog = some false := by
          simpa [hc.1] using hscan
        simp only [step, handleTerminate, beginCycle]
        rw [if_pos hc]
        split_ifs <;> (try contradiction) <;>
          simp [altScan_append, hs', altStep]
      · simp only [step, handleTerminate]
        rw [if_neg hc]
        exact hscan
  · intro hs2
    have hsf : s.isStarted = false := by
      rw [step_isStarted] at hs2
      cases hb : s.isStarted
      · rfl
      · rw [hb] at hs2; simp at hs2
    have hne : e ≠ WEvent.startCall := by
      intro he
      rw [he, step_isStarted] at hs2
      simp at hs2
    exact step_idle s e (hidle hsf) hne

/-- The alternation invariant holds in every reachable state. -/
lemma altInv_run (evs : List WEvent) : altInv (run evs) := by
  have hgen : ∀ (l : List WEvent) (s : WatcherState), altInv s →
      altInv (l.foldl step s) := by
    intro l
    induction l with
    | nil => intro s h; exact h
    | cons e rest ih =>
      intro s h
      rw [List.foldl_cons]
      exact ih (step s e) (altInv_step s e h)
  exact hgen evs initState ⟨rfl, fun _ => rfl⟩

/-- C6: along every event sequence the callback log strictly alternates,
starting with a connection value — the callback never receives two
non-absent values (nor two absence values) in a row; and the only event that
can append a non-absent value to the log is the arrival of a non-absent
process handle. -/
theorem callback_alternation :
    (∀ evs : List WEvent, altOk ((run evs).callbackLog) = true) ∧
    (∀ (s : WatcherState) (e : WEvent),
      (step s e).callbackLog = s.callbackLog ∨
      (step s e).callbackLog = s.callbackLog ++ [none] ∨
      ∃ p w c, e = WEvent.procResult (some p) w ∧
        (step s e).callbackLog = s.callbackLog ++ [some c]) := by
  constructor
  · intro evs
    have h := (altInv_run evs).1
    unfold altOk
    rw [h]
    split_ifs <;> rfl
  · intro s e
    cases e with
    | startCall =>
      left
      by_cases hs : s.isStarted = false <;>
        simp [step, handleStart, beginCycle, hs]
    | disposeCall =>
      left
      by_cases hd : s.isDisposed = false
      · simp only [step, handleDispose, hd, if_true]
        cases hc : s.currentIDEConnectionSubscription <;>
          cases hc2 : s.currentIDEConnection <;> simp [hc, hc2]
      · simp [step, handleDispose, hd]
    | procResult p wall =>
      by_cases hm : s.mode = Mode.awaitingProc
      · cases p with
        | none =>
          left
          simp [step, handleProcResult, hm] <;> split_ifs <;> rfl
        | some pid =>
          by_cases hd : s.isDisposed = true
          · left; simp [step, handleProcResult, hm, hd]
          · right; right
            refine ⟨pid, wall, s.nextConnId, rfl, ?_⟩
            have hd2 : s.isDisposed = false := by
              cases hb : s.isDisposed
              · rfl
              · exact absurd hb hd
            simp [step, handleProcResult, hm, hd2]
      · left; simp [step, handleProcResult, hm]
    | terminate d =>
      by_cases hc : s.mode = Mode.connected ∧ s.isDisposed = false
      · right; left
        simp only [step, handleTerminate, beginCycle]
        rw [if_pos hc]
        split_ifs <;> rfl
      · left
        simp only [step, handleTerminate]
        rw [if_neg hc]

end FlowWatcher

namespace FlowWatcher

/-- A failed spawn attempt preserves the always-absent-cycle invariant:
below the deadline the watcher keeps retrying, strictly past it the cycle
ends in `gaveUp`. -/
lemma timeoutInv_step (s : WatcherState) (w : Nat) (h : timeoutInv s) :
    timeoutInv (step s (WEvent.procResult none w)) := by
  obtain ⟨hlog, hcyc, hend, hdisp, hstart, hmode⟩ := h
  rcases hmode with hm | ⟨hm, ht⟩
  · by_cases hdl : s.time + w > s.endTimeMS
    · have hstep : step s (WEvent.procResult none w)
          = { s with time := s.time + w, mode := Mode.gaveUp } := by
        simp [step, handleProcResult, hm, hdisp, hdl]
      rw [hstep]
      exact ⟨hlog, hcyc, hend, hdisp, hstart, Or.inr ⟨rfl, hdl⟩⟩
    · simp only [step, handleProcResult, hm, if_true, hdisp]
      rw [if_neg (by simp [hdisp])]
      rw [if_neg (by simp; omega)]
      split_ifs <;>
        exact ⟨hlog, hcyc, hend, rfl, hstart, Or.inl rfl⟩
  · have hstep : step s (WEvent.procResult none w) = s := by
      simp [step, handleProcResult, hm]
    rw [hstep]
    exact ⟨hlog, hcyc, hend, hdisp, hstart, Or.inr ⟨hm, ht⟩⟩

/-- The always-absent-cycle invariant holds after any all-absent script. -/
lemma timeoutInv_run (evs : List WEvent) (hall : allAbsent evs)
    (s : WatcherState) (h : timeoutInv s) :
    timeoutInv (evs.foldl step s) := by
  induction evs generalizing s with
  | nil => exact h
  | cons e rest ih =>
    rw [List.foldl_cons]
    obtain ⟨w, rfl⟩ := hall e (List.mem_cons_self e rest)
    exact ih (fun x hx => hall x (List.mem_cons_of_mem _ hx))
      (step s (WEvent.procResult none w)) (timeoutInv_step s w h)

/-- C3: under a Process Source that always yields absence, the single
acquisition cycle started by `start()` never invokes the callback, keeps its
deadline as computed once at cycle start (`now + IDE_CONNECTION_MAX_WAIT_MS`
with `now = 0`), and is either still retrying or has given up at a time
strictly past that deadline; an attempt resolving strictly past the deadline
ends the cycle (`_makeIDEConnection` returns, resolving the promise from
`start()`), one resolving at or before it does not; and after the give-up no
event starts another cycle or attempt or invokes the callback. -/
theorem timeout_giveup :
    (∀ evs : List WEvent, allAbsent evs →
      (run (WEvent.startCall :: evs)).callbackLog = [] ∧
      (run (WEvent.startCall :: evs)).cyclesStarted = 1 ∧
      (run (WEvent.startCall :: evs)).endTimeMS = IDE_CONNECTION_MAX_WAIT_MS ∧
      ((run (WEvent.startCall :: evs)).mode = Mode.awaitingProc ∨
        (run (WEvent.startCall :: evs)).mode = Mode.gaveUp) ∧
      ((run (WEvent.startCall :: evs)).mode = Mode.gaveUp →
        (run (WEvent.startCall :: evs)).time > IDE_CONNECTION_MAX_WAIT_MS)) ∧
    (∀ (s : WatcherState) (w : Nat), s.mode = Mode.awaitingProc →
      s.isDisposed = false → s.time + w > s.endTimeMS →
      (step s (WEvent.procResult none w)).mode = Mode.gaveUp ∧
      (step s (WEvent.procResult none w)).callbackLog = s.callbackLog ∧
      (step s (WEvent.procResult none w)).cyclesStarted = s.cyclesStarted) ∧
    (∀ (s : WatcherState) (w : Nat), s.mode = Mode.awaitingProc →
      s.isDisposed = false → s.time + w ≤ s.endTimeMS →
      (step s (WEvent.procResult none w)).mode = Mode.awaitingProc) ∧
    (∀ (s : WatcherState) (e : WEvent), s.mode = Mode.gaveUp →
      s.isStarted = true →
      (step s e).mode = Mode.gaveUp ∧
      (step s e).cyclesStarted = s.cyclesStarted ∧
      (step s e).attemptsStarted = s.attemptsStarted ∧
      (step s e).callbackLog = s.callbackLog) := by
  refine ⟨?_, ?_, ?_, fun s e hm hs => step_gaveUp_frame s e hm hs⟩
  · intro evs hall
    have hinit : timeoutInv (step initState WEvent.startCall) :=
      ⟨rfl, rfl, rfl, rfl, rfl, Or.inl rfl⟩
    have h := timeoutInv_run evs hall (step initState WEvent.startCall) hinit
    have hruneq : run (WEvent.startCall :: evs)
        = evs.foldl step (step initState WEvent.startCall) := by
      simp [run, List.foldl_cons]
    rw [hruneq]
    obtain ⟨hlog, hcyc, hend, _, _, hmode⟩ := h
    refine ⟨hlog, hcyc, hend, ?_, ?_⟩
    · rcases hmode with hm | ⟨hm, _⟩
      · exact Or.inl hm
      · exact Or.inr hm
    · intro hg
      rcases hmode with hm | ⟨hm, ht⟩
      · rw [hm] at hg
        exact absurd hg (by simp)
      · rw [hend] at ht
        exact ht
  · intro s w hm hd hdl
    have hstep : step s (WEvent.procResult none w)
        = { s with time := s.time + w, mode := Mode.gaveUp } := by
      simp [step, handleProcResult, hm, hd, hdl]
    rw [hstep]
    exact ⟨rfl, rfl, rfl⟩
  · intro s w hm hd hdl
    simp only [step, handleProcResult, hm, if_true, hd]
    rw [if_neg (by simp [hd])]
    rw [if_neg (by simp; omega)]
    split_ifs <;> rfl

/-- Witness for C3: two failed attempts totalling 1,300,000 ms of wall time
exhaust the 1,200,000 ms budget: the watcher gives up with an empty callback
log at a clock strictly past the deadline. -/
theorem timeout_giveup_witness :
    allAbsent [WEvent.procResult none 600000,
      WEvent.procResult none 700000] ∧
    (run [WEvent.startCall, WEvent.procResult none 600000,
      WEvent.procResult none 700000]).callbackLog = [] ∧
    (run [WEvent.startCall, WEvent.procResult none 600000,
      WEvent.procResult none 700000]).mode = Mode.gaveUp ∧
    (run [WEvent.startCall, WEvent.procResult none 600000,
      WEvent.procResult none 700000]).time > IDE_CONNECTION_MAX_WAIT_MS := by
  have hall : allAbsent [WEvent.procResult none 600000,
      WEvent.procResult none 700000] := by
    intro e he
    simp only [List.mem_cons, List.not_mem_nil, or_false] at he
    rcases he with h | h
    · exact ⟨600000, h⟩
    · exact ⟨700000, h⟩
  have h := timeout_giveup.1 [WEvent.procResult none 600000,
    WEvent.procResult none 700000] hall
  refine ⟨hall, h.1, by decide, ?_⟩
  exact h.2.2.2.2 (by decide)

end FlowWatcher
